import Mathlib

/-
  Verification development for the speechtext streaming transcription
  pipeline. The definitions below are a shallow embedding of
  src/speechtext/transcription/speech_to_text.py (class SpeechTranscriber)
  and src/speechtext/audio/recorder.py (class AudioRecorder).

  Modelling conventions:
  - Python floats are modelled as rationals; wall-clock readings of
    time.time are passed in as explicit rational parameters.
  - The mutable usage_stats dictionary is the structure UsageStats.
  - Callback invocations are modelled as an emitted event trace; the
    three optional callbacks are three Booleans saying whether each
    callback was supplied.
  - The backend response iterator is a list of stream items; a
    transport-level error raised while iterating is the item
    StreamItem.err, and the stop_event value observed at the top of a
    loop iteration is recorded on each item.
-/

namespace SpeechText

/-- Pricing constant from speech_to_text.py: 0.006 dollars per
15-second billable chunk (standard model). -/
def PRICING_PER_15_SECONDS : ℚ := 6 / 1000

/-- The usage_stats dictionary created by reset_usage_stats: raw
counters only; derived fields are computed by get_usage_stats. -/
structure UsageStats where
  total_audio_seconds : ℚ
  chunks_processed : ℕ
  total_characters : ℕ
  start_time : ℚ
  transcription_count : ℕ
  deriving Repr, DecidableEq

/-- reset_usage_stats: all raw counters to zero, start_time to the
current wall-clock reading. -/
def reset_usage_stats (now : ℚ) : UsageStats :=
  { total_audio_seconds := 0
    chunks_processed := 0
    total_characters := 0
    start_time := now
    transcription_count := 0 }

/-- The dictionary returned by get_usage_stats: the raw counters spread
together with the derived fields. -/
structure UsageSnapshot where
  total_audio_seconds : ℚ
  chunks_processed : ℕ
  total_characters : ℕ
  start_time : ℚ
  transcription_count : ℕ
  elapsed_seconds : ℚ
  estimated_cost_usd : ℚ
  billable_chunks : ℤ
  deriving Repr, DecidableEq

/-- get_usage_stats: elapsed_seconds = now - start_time;
billable_chunks = (total_audio_seconds + 14) // 15 (Python floor
division); estimated_cost_usd = billable_chunks * 0.006. -/
def get_usage_stats (s : UsageStats) (now : ℚ) : UsageSnapshot :=
  let elapsed_seconds : ℚ := now - s.start_time
  let billable_chunks : ℤ := ⌊(s.total_audio_seconds + 14) / 15⌋
  { total_audio_seconds := s.total_audio_seconds
    chunks_processed := s.chunks_processed
    total_characters := s.total_characters
    start_time := s.start_time
    transcription_count := s.transcription_count
    elapsed_seconds := elapsed_seconds
    estimated_cost_usd := (billable_chunks : ℚ) * PRICING_PER_15_SECONDS
    billable_chunks := billable_chunks }

/-- The mathematical ceiling the spec documents for billable chunks. -/
def specBillableChunks (total_audio_seconds : ℚ) : ℤ :=
  ⌈total_audio_seconds / 15⌉

/-
  _audio_generator: iterates over incoming audio chunks; at the top of
  each iteration it reads stop_event (modelled as the Boolean paired
  with the chunk) and breaks when set; otherwise it adds
  len(chunk) / sample_rate to total_audio_seconds, increments
  chunks_processed, and yields the encoded chunk. A chunk is modelled
  by its sample count; the yielded payload is identified with it.
-/
def audio_generator (sample_rate : ℕ) :
    UsageStats → List (Bool × ℕ) → UsageStats × List ℕ
  | s, [] => (s, [])
  | s, (stop, n) :: rest =>
    if stop then (s, [])
    else
      let s1 := { s with
        total_audio_seconds :=
          s.total_audio_seconds + (n : ℚ) / (sample_rate : ℚ)
        chunks_processed := s.chunks_processed + 1 }
      let out := audio_generator sample_rate s1 rest
      (out.1, n :: out.2)

/- Backend response data model, following the Google Cloud streaming
recognition response shape used by transcribe_stream. -/

structure SpeechAlternative where
  transcript : String
  deriving Repr, DecidableEq

structure SpeechResult where
  alternatives : List SpeechAlternative
  is_final : Bool
  deriving Repr, DecidableEq

structure StreamingResponse where
  results : List SpeechResult
  deriving Repr, DecidableEq

/-- Which of the three optional callbacks were supplied to
transcribe_stream. -/
structure Callbacks where
  onInterim : Bool
  onFinal : Bool
  onUsage : Bool
  deriving Repr, DecidableEq

/-- One observable callback invocation. -/
inductive Event where
  | interim (t : String)
  | final (t : String)
  | usage (u : UsageSnapshot)
  deriving Repr, DecidableEq

/-- One item produced by iterating the backend response stream: either
a response, delivered while stop_event reads stopSet and the wall clock
reads now, or a transport-level error raised by the iterator. -/
inductive StreamItem where
  | ok (stopSet : Bool) (resp : StreamingResponse) (now : ℚ)
  | err
  deriving Repr, DecidableEq

/-- The two continue-guards of the response loop: a response with no
results, or whose first result has no alternatives, yields no
transcript; otherwise the first transcript of the first result and its
is_final flag. -/
def firstTranscript (r : StreamingResponse) : Option (Bool × String) :=
  match r.results with
  | [] => none
  | result :: _ =>
    match result.alternatives with
    | [] => none
    | alt :: _ => some (result.is_final, alt.transcript)

/-- The per-event dispatch of transcribe_stream: raise the
total_characters high-water mark, then either increment
transcription_count and invoke on_final_result, or invoke
on_interim_result. -/
def dispatchOne (cb : Callbacks) (s : UsageStats) (fin : Bool)
    (t : String) : UsageStats × List Event :=
  let s1 := { s with total_characters := max s.total_characters t.length }
  if fin then
    ({ s1 with transcription_count := s1.transcription_count + 1 },
     if cb.onFinal then [Event.final t] else [])
  else
    (s1, if cb.onInterim then [Event.interim t] else [])

/-- The periodic usage block: when more than one second has passed
since last_usage_update, refresh it and, if supplied, invoke
on_usage_update with a fresh snapshot. -/
def periodicUsage (cb : Callbacks) (s : UsageStats) (last now : ℚ) :
    ℚ × List Event :=
  if now - last > 1 then
    (now, if cb.onUsage then [Event.usage (get_usage_stats s now)] else [])
  else (last, [])

/-- The try-block response loop of transcribe_stream: state is the
usage_stats value and last_usage_update. The loop breaks when
stop_event is set, continues past responses without a transcript, and
a transport-level error ends the loop (caught by the except block). -/
def responseLoop (cb : Callbacks) :
    UsageStats → ℚ → List StreamItem → UsageStats × List Event
  | s, _, [] => (s, [])
  | s, _, StreamItem.err :: _ => (s, [])
  | s, last, StreamItem.ok stopSet resp now :: rest =>
    if stopSet then (s, [])
    else
      match firstTranscript resp with
      | none => responseLoop cb s last rest
      | some (fin, t) =>
        let d := dispatchOne cb s fin t
        let p := periodicUsage cb d.1 last now
        let r := responseLoop cb d.1 p.1 rest
        (r.1, d.2 ++ p.2 ++ r.2)

/-- transcribe_stream: clears stop_event, resets the usage stats
(discarding any prior state), runs the response loop, and finally, if
supplied, invokes on_usage_update once with a final snapshot taken at
wall-clock endTime. -/
def transcribe_stream (cb : Callbacks) (prior : UsageStats)
    (now0 endTime : ℚ) (items : List StreamItem) :
    UsageStats × List Event :=
  let s0 := reset_usage_stats now0
  let r := responseLoop cb s0 now0 items
  (r.1,
   r.2 ++ if cb.onUsage then [Event.usage (get_usage_stats r.1 endTime)]
          else [])

/-
  AudioRecorder.get_audio_chunks, recorder.py. The consumer loop
  `while not stop_event.is_set() or not queue.empty()` is modelled as a
  step machine driven by a schedule of atomic actions: put (the capture
  callback enqueues a frame), setStop (stop sets stop_event), and poll
  (one iteration of the consumer loop: evaluate the guard, then either
  exit, pop and yield the head frame, or time out on an empty queue and
  continue). Frames are identified by natural numbers.
-/

inductive QAction where
  | put (f : ℕ)
  | setStop
  | poll
  deriving Repr, DecidableEq

/-- State of the recorder: stop_event, the FIFO audio_queue, the frames
yielded so far, and whether the consumer loop has exited. -/
structure RecorderState where
  stopSet : Bool
  q : List ℕ
  out : List ℕ
  finished : Bool
  deriving Repr, DecidableEq

def initialRecorder : RecorderState :=
  { stopSet := false, q := [], out := [], finished := false }

/-- One atomic action against the recorder state. A poll after the loop
has exited does nothing; otherwise it first evaluates the while guard
(continue iff stop_event unset or queue nonempty), then pops the head
frame when one is available, and on an empty queue catches queue.Empty
and continues. -/
def recStep (st : RecorderState) : QAction → RecorderState
  | QAction.put f => { st with q := st.q ++ [f] }
  | QAction.setStop => { st with stopSet := true }
  | QAction.poll =>
    if st.finished then st
    else if st.stopSet ∧ st.q = [] then { st with finished := true }
    else
      match st.q with
      | [] => st
      | f :: rest => { st with q := rest, out := st.out ++ [f] }

def runRecorder (acts : List QAction) : RecorderState :=
  acts.foldl recStep initialRecorder

/-- The frames enqueued by a schedule, in capture (FIFO) order. -/
def putsOf : List QAction → List ℕ
  | [] => []
  | QAction.put f :: rest => f :: putsOf rest
  | _ :: rest => putsOf rest

/-- Schedules in which every frame is enqueued before stop is called:
okSched stopped acts holds when no put occurs at or after a setStop.
The first argument tracks whether stop has already been set. -/
def okSched : Bool → List QAction → Bool
  | _, [] => true
  | stopped, QAction.put _ :: rest => !stopped && okSched stopped rest
  | _, QAction.setStop :: rest => okSched true rest
  | stopped, QAction.poll :: rest => okSched stopped rest

/-
  Usage Accountant under concurrency. The frame-feed path mutates the
  shared usage_stats dictionary with two separate statements
  (total_audio_seconds += d, then chunks_processed += 1), and
  get_usage_stats may run concurrently from the event-dispatch thread.
  Each statement is one atomic micro-operation; a schedule is an
  interleaving of micro-operations, and each snapshot taken is
  recorded.
-/

inductive MicroOp where
  | addSeconds (d : ℚ)
  | incChunks
  | snapshot (now : ℚ)
  deriving Repr, DecidableEq

structure AccState where
  stats : UsageStats
  snaps : List UsageSnapshot
  deriving Repr, DecidableEq

def microStep (st : AccState) : MicroOp → AccState
  | MicroOp.addSeconds d =>
    { st with stats := { st.stats with
        total_audio_seconds := st.stats.total_audio_seconds + d } }
  | MicroOp.incChunks =>
    { st with stats := { st.stats with
        chunks_processed := st.stats.chunks_processed + 1 } }
  | MicroOp.snapshot now =>
    { st with snaps := st.snaps ++ [get_usage_stats st.stats now] }

def runMicro (s0 : UsageStats) (ops : List MicroOp) : AccState :=
  ops.foldl microStep { stats := s0, snaps := [] }

/-- The two micro-operations the _audio_generator body performs on the
shared counters for one frame of duration d, in program order. -/
def frameOps (d : ℚ) : List MicroOp :=
  [MicroOp.addSeconds d, MicroOp.incChunks]

/-- A schedule in which get_usage_stats runs between the two counter
updates of a single 1024-sample frame at 16 kHz (duration 8/125 s). -/
def tornSchedule : List MicroOp :=
  [MicroOp.addSeconds (8 / 125), MicroOp.snapshot 0, MicroOp.incChunks]

/-- A backend response stream carrying one well-formed recognition
event per pair (transcript, is_final), delivered with stop_event unset
and the wall clock at zero. -/
def mkTranscriptItems (ts : List (String × Bool)) : List StreamItem :=
  ts.map fun p =>
    StreamItem.ok false
      { results := [{ alternatives := [{ transcript := p.1 }],
                      is_final := p.2 }] } 0

/- Theorems. -/

/-- Claim C1. The claim states that every snapshot satisfies
billable_chunks = ceil(total_audio_seconds / 15). The code computes
(total_audio_seconds + 14) // 15 instead, and its own comment says it
rounds up to the nearest 15 seconds. On the fractional totals the
accountant actually produces (one 1024-sample frame at 16 kHz gives
8/125 = 0.064 seconds) the code yields 0 billable chunks and zero cost
where the documented ceiling yields 1: the code contradicts its
documented rounding. On the integer examples of the claim (31 and 30
seconds) code and ceiling agree (3 and 2 chunks), and the cost field
does equal billable_chunks times 0.006. -/
theorem c1_billable_floor_not_ceiling :
    (get_usage_stats
      { total_audio_seconds := 8 / 125, chunks_processed := 1,
        total_characters := 0, start_time := 0,
        transcription_count := 0 } 1).billable_chunks = 0
    ∧ specBillableChunks (8 / 125) = 1
    ∧ (get_usage_stats
        { total_audio_seconds := 8 / 125, chunks_processed := 1,
          total_characters := 0, start_time := 0,
          transcription_count := 0 } 1).estimated_cost_usd = 0
    ∧ (get_usage_stats
        { total_audio_seconds := 31, chunks_processed := 0,
          total_characters := 0, start_time := 0,
          transcription_count := 0 } 1).billable_chunks = 3
    ∧ specBillableChunks 31 = 3
    ∧ (get_usage_stats
        { total_audio_seconds := 30, chunks_processed := 0,
          total_characters := 0, start_time := 0,
          transcription_count := 0 } 1).billable_chunks = 2
    ∧ specBillableChunks 30 = 2
    ∧ (get_usage_stats
        { total_audio_seconds := 31, chunks_processed := 0,
          total_characters := 0, start_time := 0,
          transcription_count := 0 } 1).estimated_cost_usd
        = 3 * PRICING_PER_15_SECONDS := by
  refine ⟨?_, ?_, ?_, ?_, ?_, ?_, ?_, ?_⟩
  · norm_num [get_usage_stats]
  · simp only [specBillableChunks]
    rw [Int.ceil_eq_iff]
    norm_num
  · norm_num [get_usage_stats, PRICING_PER_15_SECONDS]
  · norm_num [get_usage_stats]
  · simp only [specBillableChunks]
    rw [Int.ceil_eq_iff]
    norm_num
  · norm_num [get_usage_stats]
  · simp only [specBillableChunks]
    rw [Int.ceil_eq_iff]
    norm_num
  · norm_num [get_usage_stats, PRICING_PER_15_SECONDS]

/-- On a stop-free chunk list, audio_generator adds each duration
len / rate to total_audio_seconds. -/
lemma audio_generator_total (rate : ℕ) :
    ∀ (lens : List ℕ) (s : UsageStats),
      (audio_generator rate s
          (lens.map fun n => (false, n))).1.total_audio_seconds
        = s.total_audio_seconds
          + (lens.map fun n : ℕ => (n : ℚ) / (rate : ℚ)).sum
  | [], s => by simp [audio_generator]
  | n :: lens, s => by
    simp only [List.map_cons, audio_generator, Bool.false_eq_true, if_false,
      List.sum_cons, audio_generator_total rate lens]
    ring

/-- On a stop-free chunk list, audio_generator increments
chunks_processed exactly once per chunk. -/
lemma audio_generator_chunks (rate : ℕ) :
    ∀ (lens : List ℕ) (s : UsageStats),
      (audio_generator rate s
          (lens.map fun n => (false, n))).1.chunks_processed
        = s.chunks_processed + lens.length
  | [], s => by simp [audio_generator]
  | n :: lens, s => by
    simp only [List.map_cons, audio_generator, Bool.false_eq_true, if_false,
      List.length_cons, audio_generator_chunks rate lens]
    omega

/-- On a stop-free chunk list, audio_generator yields every chunk. -/
lemma audio_generator_yields (rate : ℕ) :
    ∀ (lens : List ℕ) (s : UsageStats),
      (audio_generator rate s (lens.map fun n => (false, n))).2 = lens
  | [], s => by simp [audio_generator]
  | n :: lens, s => by
    simp only [List.map_cons, audio_generator, Bool.false_eq_true, if_false,
      audio_generator_yields rate lens]

/-- Claim C3: a fully consumed stop-free sequence of frames leaves
total_audio_seconds equal to the sum of the per-frame durations
(frame length over sample rate) and chunks_processed equal to the
number of frames, each counter updated exactly once per frame and
every frame yielded; in particular 5 frames of 1024 samples at
16000 Hz give total_audio_seconds = 0.32 and chunks_processed = 5. -/
theorem c3_frame_accounting (rate : ℕ) (s : UsageStats) (lens : List ℕ) :
    ((audio_generator rate s
          (lens.map fun n => (false, n))).1.total_audio_seconds
        = s.total_audio_seconds
          + (lens.map fun n : ℕ => (n : ℚ) / (rate : ℚ)).sum
      ∧ (audio_generator rate s
          (lens.map fun n => (false, n))).1.chunks_processed
        = s.chunks_processed + lens.length
      ∧ (audio_generator rate s (lens.map fun n => (false, n))).2 = lens)
    ∧ (audio_generator 16000 (reset_usage_stats 0)
        (List.replicate 5 (false, 1024))).1.total_audio_seconds = 8 / 25
    ∧ (audio_generator 16000 (reset_usage_stats 0)
        (List.replicate 5 (false, 1024))).1.chunks_processed = 5 := by
  refine ⟨⟨audio_generator_total rate lens s,
    audio_generator_chunks rate lens s,
    audio_generator_yields rate lens s⟩, ?_, ?_⟩
  · norm_num [audio_generator, reset_usage_stats, List.replicate]
  · decide

/-- Claim C6: transcribe_stream resets every raw usage counter to its
initial value before any accumulation: the result never depends on the
usage state left by a previous invocation, the reset state has all
counters zero and start_time set to the invocation time, and the
response loop starts exactly from that reset state. -/
theorem c6_reset_no_leakage (cb : Callbacks) (p1 p2 : UsageStats)
    (now0 endTime : ℚ) (items : List StreamItem) :
    transcribe_stream cb p1 now0 endTime items
      = transcribe_stream cb p2 now0 endTime items
    ∧ reset_usage_stats now0 =
      { total_audio_seconds := 0, chunks_processed := 0,
        total_characters := 0, start_time := now0,
        transcription_count := 0 }
    ∧ (transcribe_stream cb p1 now0 endTime items).1
      = (responseLoop cb (reset_usage_stats now0) now0 items).1 := by
  exact ⟨rfl, rfl, rfl⟩

/-- Claim C9. The claim states that no snapshot ever observes a torn
intermediate state. The code mutates the shared usage_stats dictionary
with two separate statements per frame and takes snapshots without any
lock, so the interleaving in which get_usage_stats runs between the
two updates of one 0.064-second frame is a real schedule: its snapshot
records total_audio_seconds = 8/125 yet chunks_processed = 0, which
matches no frame count, while the completed run has chunks_processed
= 1. The schedule is a valid interleaving: it contains the two
frame micro-operations in program order. -/
theorem c9_torn_snapshot :
    ((runMicro (reset_usage_stats 0) tornSchedule).snaps.map
        fun u => (u.total_audio_seconds, u.chunks_processed))
      = [(8 / 125, 0)]
    ∧ (¬ ∃ k : ℕ,
        (8 : ℚ) / 125 = (k : ℚ) * (8 / 125) ∧ (0 : ℕ) = k)
    ∧ (runMicro (reset_usage_stats 0) tornSchedule).stats.chunks_processed = 1
    ∧ (runMicro (reset_usage_stats 0) tornSchedule).stats.total_audio_seconds
      = 8 / 125
    ∧ List.Sublist (frameOps (8 / 125)) tornSchedule := by
  refine ⟨?_, ?_, ?_, ?_, ?_⟩
  · simp [runMicro, tornSchedule, microStep, get_usage_stats,
      reset_usage_stats]
  · rintro ⟨k, hk, hk0⟩
    rw [← hk0] at hk
    norm_num at hk
  · decide
  · norm_num [runMicro, tornSchedule, microStep, reset_usage_stats]
  · simp only [frameOps, tornSchedule]
    exact List.Sublist.cons₂ _ (List.Sublist.cons _ (List.Sublist.refl _))

/-- The dispatch step raises total_characters to the maximum of its
old value and the transcript length, whether the event is final or
interim. -/
lemma dispatchOne_chars (cb : Callbacks) (s : UsageStats) (fin : Bool)
    (t : String) :
    (dispatchOne cb s fin t).1.total_characters
      = max s.total_characters t.length := by
  cases fin <;> simp [dispatchOne]

/-- Across any suffix of the response loop, total_characters never
decreases. -/
lemma responseLoop_chars_mono (cb : Callbacks) :
    ∀ (items : List StreamItem) (s : UsageStats) (last : ℚ),
      s.total_characters ≤ (responseLoop cb s last items).1.total_characters
  | [], _, _ => le_refl _
  | StreamItem.err :: _, _, _ => le_refl _
  | StreamItem.ok stopSet resp now :: rest, s, last => by
    simp only [responseLoop]
    by_cases h : stopSet = true
    · simp [h]
    · simp only [Bool.not_eq_true] at h
      subst h
      simp only [Bool.false_eq_true, if_false]
      cases hft : firstTranscript resp with
      | none =>
        exact responseLoop_chars_mono cb rest s last
      | some p =>
        calc s.total_characters
            ≤ (dispatchOne cb s p.1 p.2).1.total_characters := by
              rw [dispatchOne_chars]
              exact le_max_left _ _
          _ ≤ _ := responseLoop_chars_mono cb rest _ _

/-- On a stream of well-formed events, total_characters is the left
fold of max over the transcript lengths. -/
lemma responseLoop_chars_fold (cb : Callbacks) :
    ∀ (ts : List (String × Bool)) (s : UsageStats) (last : ℚ),
      (responseLoop cb s last (mkTranscriptItems ts)).1.total_characters
        = ts.foldl (fun m p => max m p.1.length) s.total_characters
  | [], s, _ => by simp [mkTranscriptItems, responseLoop]
  | (t, fin) :: ts, s, last => by
    simp only [mkTranscriptItems, List.map_cons, responseLoop,
      Bool.false_eq_true, if_false, firstTranscript, List.foldl_cons]
    have ih := responseLoop_chars_fold cb ts (dispatchOne cb s fin t).1
      (periodicUsage cb (dispatchOne cb s fin t).1 last 0).1
    simp only [mkTranscriptItems] at ih
    rw [ih, dispatchOne_chars]

/-- Claim C5: across one session, total_characters is the running
maximum of the transcript lengths observed (a high-water mark seeded
by the value at session start), never a running sum; the transcripts
of lengths 5, 12 and 8 leave total_characters = 12, not 25. -/
theorem c5_highwater (cb : Callbacks) (s : UsageStats) (last : ℚ)
    (ts : List (String × Bool)) :
    ((responseLoop cb s last (mkTranscriptItems ts)).1.total_characters
        = ts.foldl (fun m p => max m p.1.length) s.total_characters)
    ∧ (responseLoop ⟨true, true, true⟩ (reset_usage_stats 0) 0
        (mkTranscriptItems
          [("abcde", false), ("abcdefghijkl", false),
           ("abcdefgh", true)])).1.total_characters = 12
    ∧ (responseLoop ⟨true, true, true⟩ (reset_usage_stats 0) 0
        (mkTranscriptItems
          [("abcde", false), ("abcdefghijkl", false),
           ("abcdefgh", true)])).1.total_characters ≠ 5 + 12 + 8 := by
  refine ⟨responseLoop_chars_fold cb ts s last, ?_, ?_⟩
  · rw [responseLoop_chars_fold]
    rfl
  · rw [responseLoop_chars_fold]
    decide

/-- Claim C10: within one transcribe_stream invocation,
total_characters is monotonically non-decreasing across the processed
events: from any mid-session state it can only grow, and an incoming
transcript shorter than every one seen before (length 3 against a
high-water mark of 12) leaves the counter at 12. -/
theorem c10_chars_monotone (cb : Callbacks) (items : List StreamItem)
    (s : UsageStats) (last : ℚ) :
    s.total_characters ≤ (responseLoop cb s last items).1.total_characters
    ∧ (responseLoop ⟨true, true, true⟩
        { total_audio_seconds := 0, chunks_processed := 0,
          total_characters := 12, start_time := 0,
          transcription_count := 0 } 0
        (mkTranscriptItems [("hel", false)])).1.total_characters = 12 := by
  refine ⟨responseLoop_chars_mono cb items s last, ?_⟩
  rw [responseLoop_chars_fold]
  rfl

/-- Claim C7: a Final event raises the character high-water mark,
increments transcription_count by one and invokes on_final_result
with the transcript; an Interim event raises the mark, leaves
transcription_count unchanged and invokes on_interim_result; and the
backend sequence Interim(hel), Interim(hello), Final(hello world)
produces exactly two interim invocations then one final invocation in
delivery order, with transcription_count 1. -/
theorem c7_event_dispatch (s : UsageStats) (last : ℚ) (t : String) :
    (responseLoop ⟨true, true, true⟩ s last
        [StreamItem.ok false
          { results := [{ alternatives := [{ transcript := t }],
                          is_final := true }] } last]
      = ({ s with
            total_characters := max s.total_characters t.length
            transcription_count := s.transcription_count + 1 },
         [Event.final t]))
    ∧ (responseLoop ⟨true, true, true⟩ s last
        [StreamItem.ok false
          { results := [{ alternatives := [{ transcript := t }],
                          is_final := false }] } last]
      = ({ s with total_characters := max s.total_characters t.length },
         [Event.interim t]))
    ∧ (responseLoop ⟨true, true, true⟩ (reset_usage_stats 0) 0
        (mkTranscriptItems
          [("hel", false), ("hello", false), ("hello world", true)])).2
      = [Event.interim "hel", Event.interim "hello",
         Event.final "hello world"]
    ∧ (responseLoop ⟨true, true, true⟩ (reset_usage_stats 0) 0
        (mkTranscriptItems
          [("hel", false), ("hello", false),
           ("hello world", true)])).1.transcription_count = 1 := by
  refine ⟨?_, ?_, ?_, ?_⟩
  · norm_num [responseLoop, firstTranscript, dispatchOne, periodicUsage]
  · norm_num [responseLoop, firstTranscript, dispatchOne, periodicUsage]
  · norm_num [mkTranscriptItems, responseLoop, firstTranscript,
      dispatchOne, periodicUsage, reset_usage_stats]
  · norm_num [mkTranscriptItems, responseLoop, firstTranscript,
      dispatchOne, periodicUsage, reset_usage_stats]

/-- Claim C8: a response whose results list is empty, or whose first
result has no alternatives, is skipped silently: the loop emits no
callback invocation, changes no usage counter, raises nothing, and
continues with the remaining responses exactly as if the response had
not been there. -/
theorem c8_empty_skipped (cb : Callbacks) (s : UsageStats)
    (last now : ℚ) (rest : List StreamItem) (r : StreamingResponse)
    (h : r.results = []
      ∨ ∃ res tl, r.results = res :: tl ∧ res.alternatives = []) :
    responseLoop cb s last (StreamItem.ok false r now :: rest)
      = responseLoop cb s last rest := by
  have hft : firstTranscript r = none := by
    rcases h with h | ⟨res, tl, hr, ha⟩
    · simp [firstTranscript, h]
    · simp [firstTranscript, hr, ha]
  simp [responseLoop, hft]

/-- Witness for c8_empty_skipped at two concrete malformed responses:
one with no results and one whose sole result has no alternatives. -/
theorem c8_empty_skipped_witness :
    responseLoop ⟨true, true, true⟩ (reset_usage_stats 0) 0
        [StreamItem.ok false { results := [] } 0]
      = (reset_usage_stats 0, [])
    ∧ responseLoop ⟨true, true, true⟩ (reset_usage_stats 0) 0
        [StreamItem.ok false
          { results := [{ alternatives := [], is_final := true }] } 0]
      = (reset_usage_stats 0, []) := by
  constructor
  · rw [c8_empty_skipped ⟨true, true, true⟩ (reset_usage_stats 0) 0 0 []
      { results := [] } (Or.inl rfl)]
    simp [responseLoop]
  · rw [c8_empty_skipped ⟨true, true, true⟩ (reset_usage_stats 0) 0 0 []
      { results := [{ alternatives := [], is_final := true }] }
      (Or.inr ⟨_, _, rfl, rfl⟩)]
    simp [responseLoop]

/-- A transport-level error raised while iterating the responses ends
the loop exactly where it stands: the loop behaves as if the stream
had ended at the error, whatever follows it. -/
lemma responseLoop_err_stops (cb : Callbacks) (post : List StreamItem) :
    ∀ (pre : List StreamItem) (s : UsageStats) (last : ℚ),
      responseLoop cb s last (pre ++ StreamItem.err :: post)
        = responseLoop cb s last pre
  | [], s, last => by simp [responseLoop]
  | StreamItem.err :: pre, s, last => by simp [responseLoop]
  | StreamItem.ok stopSet resp now :: pre, s, last => by
    simp only [List.cons_append, responseLoop]
    by_cases h : stopSet = true
    · simp [h]
    · simp only [Bool.not_eq_true] at h
      subst h
      simp only [Bool.false_eq_true, if_false]
      cases hft : firstTranscript resp with
      | none => exact responseLoop_err_stops cb post pre s last
      | some p =>
        simp only [List.append_eq, responseLoop_err_stops cb post pre]

/-- Claim C2: with a usage callback supplied, every transcribe_stream
invocation ends by delivering exactly one final usage snapshot after
the response loop: the emitted trace is the loop trace followed by
exactly one usage event, whether the loop ended normally, by
cancellation, or at a transport-level error; and an error item ends
the loop gracefully at that point (everything after it is ignored and
nothing is re-raised, the function returning a plain trace). -/
theorem c2_final_snapshot (cb : Callbacks) (prior : UsageStats)
    (now0 endTime : ℚ) (items : List StreamItem)
    (h : cb.onUsage = true) :
    ((transcribe_stream cb prior now0 endTime items).2
      = (responseLoop cb (reset_usage_stats now0) now0 items).2
        ++ [Event.usage (get_usage_stats
            (responseLoop cb (reset_usage_stats now0) now0 items).1
            endTime)])
    ∧ ∀ pre post, items = pre ++ StreamItem.err :: post →
        responseLoop cb (reset_usage_stats now0) now0 items
          = responseLoop cb (reset_usage_stats now0) now0 pre := by
  constructor
  · simp [transcribe_stream, h]
  · intro pre post hsplit
    rw [hsplit]
    exact responseLoop_err_stops cb post pre _ _

/-- Witness for c2_final_snapshot on a stream that raises a transport
error immediately: the trace is still exactly one final usage
snapshot, and the loop result matches the error-free prefix. -/
theorem c2_final_snapshot_witness :
    (transcribe_stream ⟨true, true, true⟩ (reset_usage_stats 0) 0 5
        [StreamItem.err]).2
      = [Event.usage (get_usage_stats (reset_usage_stats 0) 5)]
    ∧ responseLoop ⟨true, true, true⟩ (reset_usage_stats 0) 0
        [StreamItem.err]
      = responseLoop ⟨true, true, true⟩ (reset_usage_stats 0) 0 [] := by
  have h := c2_final_snapshot ⟨true, true, true⟩ (reset_usage_stats 0)
    0 5 [StreamItem.err] rfl
  constructor
  · rw [h.1]
    simp [responseLoop]
  · exact h.2 [] [] rfl

/-- The frames yielded so far followed by the frames still queued are
exactly the frames enqueued so far, in FIFO order: the consumer drops
nothing and preserves order. -/
lemma recorder_fifo : ∀ (acts : List QAction) (st : RecorderState),
    (acts.foldl recStep st).out ++ (acts.foldl recStep st).q
      = st.out ++ st.q ++ putsOf acts
  | [], st => by simp [putsOf]
  | QAction.put f :: acts, st => by
    simp only [List.foldl_cons, recStep, putsOf, recorder_fifo acts]
    simp
  | QAction.setStop :: acts, st => by
    simp only [List.foldl_cons, recStep, putsOf, recorder_fifo acts]
  | QAction.poll :: acts, st => by
    simp only [List.foldl_cons, recStep, putsOf]
    by_cases h1 : st.finished
    · simp only [if_pos h1, recorder_fifo acts]
    · simp only [if_neg h1]
      by_cases h2 : st.stopSet = true ∧ st.q = []
      · simp only [if_pos h2, recorder_fifo acts]
      · simp only [if_neg h2]
        cases hq : st.q with
        | nil => simp only [recorder_fifo acts, hq]
        | cons f rest =>
          simp only [recorder_fifo acts, hq]
          simp

/-- When no frame is enqueued at or after the stop signal, the
consumer loop can only have exited with the stop signal set and the
queue empty. -/
lemma recorder_inv : ∀ (acts : List QAction) (st : RecorderState),
    okSched st.stopSet acts = true →
    (st.finished = true → st.stopSet = true ∧ st.q = []) →
    ((acts.foldl recStep st).finished = true →
      (acts.foldl recStep st).stopSet = true
        ∧ (acts.foldl recStep st).q = [])
  | [], _ => fun _ hinv => hinv
  | QAction.put f :: acts, st => by
    intro hok hinv
    simp only [okSched, Bool.and_eq_true, Bool.not_eq_true'] at hok
    simp only [List.foldl_cons, recStep]
    refine recorder_inv acts _ ?_ ?_
    · exact hok.2
    · intro hf
      exact absurd (hinv hf).1 (by simp [hok.1])
  | QAction.setStop :: acts, st => by
    intro hok hinv
    simp only [okSched] at hok
    simp only [List.foldl_cons, recStep]
    refine recorder_inv acts _ ?_ ?_
    · exact hok
    · intro hf
      exact ⟨rfl, (hinv hf).2⟩
  | QAction.poll :: acts, st => by
    intro hok hinv
    simp only [okSched] at hok
    simp only [List.foldl_cons, recStep]
    by_cases h1 : st.finished
    · simp only [if_pos h1]
      exact recorder_inv acts st hok hinv
    · simp only [if_neg h1]
      by_cases h2 : st.stopSet = true ∧ st.q = []
      · simp only [if_pos h2]
        refine recorder_inv acts _ ?_ ?_
        · exact hok
        · intro _
          exact h2
      · simp only [if_neg h2]
        cases hq : st.q with
        | nil =>
          refine recorder_inv acts st hok ?_
          intro hf
          exact absurd hf h1
        | cons f rest =>
          refine recorder_inv acts _ ?_ ?_
          · exact hok
          · intro hf
            exact absurd hf h1

/-- Claim C4: for every schedule in which all frames are enqueued
before stop is set, the frames yielded plus those still queued are
exactly the enqueued frames in FIFO order, and if the consumer loop
has terminated then the stop signal is set, the queue is empty, and
every frame enqueued before stop was yielded to the relay in FIFO
order with none dropped. -/
theorem c4_consumer_no_drop (acts : List QAction)
    (h : okSched false acts = true) :
    ((runRecorder acts).out ++ (runRecorder acts).q = putsOf acts)
    ∧ ((runRecorder acts).finished = true →
        (runRecorder acts).stopSet = true
          ∧ (runRecorder acts).q = []
          ∧ (runRecorder acts).out = putsOf acts) := by
  have hf := recorder_fifo acts initialRecorder
  constructor
  · show (List.foldl recStep initialRecorder acts).out
        ++ (List.foldl recStep initialRecorder acts).q = putsOf acts
    rw [hf]
    rfl
  · intro hfin
    have hi := recorder_inv acts initialRecorder h
      (by simp [initialRecorder]) hfin
    refine ⟨hi.1, hi.2, ?_⟩
    show (List.foldl recStep initialRecorder acts).out = putsOf acts
    have hout := hf
    rw [hi.2, List.append_nil] at hout
    rw [hout]
    rfl

/-- Witness for c4_consumer_no_drop: two frames enqueued, then stop,
then three consumer iterations; the loop terminates and has yielded
both frames in order. -/
theorem c4_consumer_no_drop_witness :
    okSched false [QAction.put 7, QAction.put 9, QAction.setStop,
      QAction.poll, QAction.poll, QAction.poll] = true
    ∧ (runRecorder [QAction.put 7, QAction.put 9, QAction.setStop,
        QAction.poll, QAction.poll, QAction.poll]).out = [7, 9] := by
  have h := c4_consumer_no_drop [QAction.put 7, QAction.put 9,
    QAction.setStop, QAction.poll, QAction.poll, QAction.poll]
    (by decide)
  refine ⟨by decide, ?_⟩
  rw [(h.2 (by decide)).2.2]
  decide

end SpeechText
